import Mathlib

/-!
# vzlogger MQTT client (src/mqtt.cpp): shallow embedding and verified properties

The embedding follows `src/src/mqtt.cpp` function by function.  Calls into
libmosquitto are external: their return codes are inputs of the model and the
calls themselves are recorded as events of a trace.
-/

namespace Vzlogger

/-! ## Collaborator types (declared outside mqtt.cpp) -/

/-- Modelled from the spec: `Buffer::aggmode` is declared in Buffer.hpp, which is
not part of the sources; mqtt.cpp only names the mode `NONE`.  Every other
("non-trivial") aggregation mode is represented by `other tag`. -/
inductive aggmode where
  | NONE
  | other (tag : Nat)
  deriving DecidableEq, Repr

/-- The part of `Buffer` that mqtt.cpp reads: `get_aggmode()`. -/
structure Buffer where
  get_aggmode : aggmode
  deriving DecidableEq, Repr

/-- The part of `Channel` that mqtt.cpp reads: `name()`, `uuid()` (both C strings)
and `buffer()` (a pointer that may be null). -/
structure Channel where
  name : String
  uuid : String
  buffer : Option Buffer
  deriving DecidableEq, Repr

/-- Return code `MOSQ_ERR_SUCCESS` of libmosquitto (mosquitto.h). -/
def MOSQ_ERR_SUCCESS : Int := 0

/-! ## MqttClient::ChannelEntry -/

/-- Cache entry `MqttClient::ChannelEntry`; the fields are the members used in
mqtt.cpp (without the leading underscore). -/
structure ChannelEntry where
  announced : Bool
  sendRaw : Bool
  sendAgg : Bool
  fullTopicRaw : String
  fullTopicAgg : String
  announceName : String
  announceValue : String
  deriving DecidableEq, Repr

/-- Modelled from the spec: the default member initialisers of `ChannelEntry`
live in mqtt.hpp, which is not part of the sources.  The spec gives `announced`
as false until the first successful announce and `sendRaw` as true unless it is
forced false; `sendAgg` is overwritten by `generateNames` before it is read. -/
def ChannelEntry.default : ChannelEntry :=
  { announced := false, sendRaw := true, sendAgg := true,
    fullTopicRaw := "", fullTopicAgg := "", announceName := "", announceValue := "" }

/-- Embedding of `MqttClient::ChannelEntry::generateNames` (mqtt.cpp 187-202).
The method mutates `this`; here it maps the entry before to the entry after. -/
def ChannelEntry.generateNames (self : ChannelEntry) (pfx : String) (ch : Channel) :
    ChannelEntry :=
  -- _fullTopicRaw = prefix; _fullTopicRaw += ch.name();
  let raw0 := pfx ++ ch.name
  -- _sendAgg = ch.buffer() && ch.buffer()->get_aggmode() != Buffer::aggmode::NONE;
  let agg := match ch.buffer with
    | none => false
    | some b => decide (b.get_aggmode ≠ aggmode.NONE)
  { self with
    sendAgg := agg
    fullTopicAgg := raw0 ++ "/agg"
    announceName := raw0 ++ "/uuid"
    fullTopicRaw := raw0 ++ "/raw"
    announceValue := ch.uuid }

/-! ## MqttClient -/

/-- The client session handle `struct mosquitto *` returned by `mosquitto_new`;
it is identified by the client id it was created with. -/
structure mosquitto where
  id : String
  deriving DecidableEq, Repr

/-- Lookup in the channel cache `_chMap` (`std::unordered_map::find`): the entry
stored under a key, if any. -/
def find (m : List (String × ChannelEntry)) (key : String) : Option ChannelEntry :=
  match m with
  | [] => none
  | (k, e) :: rest => if k = key then some e else find rest key

/-- Replace the entry stored under a key (a write through the reference
`(*it).second`). -/
def update (m : List (String × ChannelEntry)) (key : String) (e : ChannelEntry) :
    List (String × ChannelEntry) :=
  match m with
  | [] => []
  | (k, e0) :: rest => if k = key then (k, e) :: rest else (k, e0) :: update rest key e

/-- State of an `MqttClient` object: the members used in mqtt.cpp. -/
structure MqttClient where
  enabled : Bool
  host : String
  port : Int
  keepalive : Int
  user : String
  pwd : String
  topic : String
  retain : Bool
  rawAndAgg : Bool
  mcs : Option mosquitto
  isConnected : Bool
  chMap : List (String × ChannelEntry)
  deriving DecidableEq, Repr

/-- Embedding of `MqttClient::isConfigured` (mqtt.cpp 155-165); the log output is
not modelled.  `_host.length()` is only tested for being zero, which holds for
the empty string alone whatever the unit of length. -/
def MqttClient.isConfigured (c : MqttClient) : Bool :=
  if !c.enabled then false
  else (c.port != 0) && (c.host.length != 0)

/-! ## Reading and the payload rendering -/

/-- Modelled from the spec: `Reading::value()` (Reading.hpp, outside the sources)
yields a `double`.  A finite double is `(-1)^neg * mant * 2^exp`; the other
values are the infinities and NaN. -/
inductive double where
  | finite (neg : Bool) (mant : Nat) (exp : Int)
  | inf (neg : Bool)
  | nan (neg : Bool)
  deriving DecidableEq, Repr

/-- The part of `Reading` that mqtt.cpp reads: `value()`. -/
structure Reading where
  value : double
  deriving DecidableEq, Repr

/-- Nearest natural number to `num / den`, ties to even. -/
def roundHalfEven (num den : Nat) : Nat :=
  let q := num / den
  let r := num % den
  if 2 * r < den then q
  else if den < 2 * r then q + 1
  else if q % 2 = 0 then q else q + 1

/-- Decimal digits of a natural number, most significant first. -/
def digits (fuel n : Nat) : List Char :=
  match fuel with
  | 0 => []
  | fuel + 1 =>
    let d := Char.ofNat (48 + n % 10)
    if n < 10 then [d] else digits fuel (n / 10) ++ [d]

/-- Rendering of a value scaled by 10^6: integer part, a point, six fraction
digits. -/
def fixed6 (q : Nat) : String :=
  let ip := q / 1000000
  let fp := digits 6 (q % 1000000)
  String.mk (digits (ip + 1) ip ++ ['.'] ++ List.replicate (6 - fp.length) '0' ++ fp)

/-- The C++ library function `std::to_string(double)`, which the standard defines
as the output of `sprintf` with format `%f`: fixed notation with six digits
after the decimal point (correctly rounded), `inf` and `nan` for the
non-finite values. -/
def to_string (d : double) : String :=
  match d with
  | double.finite neg mant exp =>
    let q := if 0 ≤ exp then mant * 2 ^ exp.toNat * 1000000
             else roundHalfEven (mant * 1000000) (2 ^ (-exp).toNat)
    (if neg then "-" else "") ++ fixed6 q
  | double.inf neg => (if neg then "-" else "") ++ "inf"
  | double.nan neg => (if neg then "-" else "") ++ "nan"

/-! ## MqttClient::publish -/

/-- The two places in `publish` that call `mosquitto_publish`. -/
inductive CallSite where
  | announce
  | value
  deriving DecidableEq, Repr

/-- Observable steps of `publish`: a run of `generateNames` and a call of
`mosquitto_publish(_mcs, 0, topic, payloadlen, payload, qos, retain)` together
with the code it returned. -/
inductive Event where
  | generateNames (pfx : String) (ch : Channel)
  | mosquitto_publish (site : CallSite) (topic : String) (payloadlen : Nat)
      (payload : String) (qos : Int) (retain : Bool) (res : Int)
  deriving DecidableEq, Repr

/-- Lines 215-225 of `publish`: search the cache for `ch->name()`; on a miss
build a fresh entry with `generateNames`, clear `_sendRaw` when
`_sendAgg && !_rawAndAgg`, and emplace it.  Returns the cache, the entry `it`
refers to, and the events. -/
def lookupOrCreate (c : MqttClient) (ch : Channel) :
    List (String × ChannelEntry) × ChannelEntry × List Event :=
  match find c.chMap ch.name with
  | some e => (c.chMap, e, [])
  | none =>
    let entry := ChannelEntry.default.generateNames c.topic ch
    let entry := if entry.sendAgg && !c.rawAndAgg then { entry with sendRaw := false } else entry
    ((ch.name, entry) :: c.chMap, entry, [Event.generateNames c.topic ch])

/-- Lines 229-244 of `publish`: announce the uuid when the entry is not announced
and has an announce name; `_announced` is set when the call returns
`MOSQ_ERR_SUCCESS`.  `res` is the code the call returns if it is made. -/
def announceStep (c : MqttClient) (entry : ChannelEntry) (res : Int) :
    ChannelEntry × List Event :=
  if !entry.announced && entry.announceName.length != 0 then
    let ev := Event.mosquitto_publish CallSite.announce entry.announceName
      entry.announceValue.utf8ByteSize entry.announceValue 0 c.retain res
    if res != MOSQ_ERR_SUCCESS then (entry, [ev])
    else ({ entry with announced := true }, [ev])
  else (entry, [])

/-- Lines 246-258 of `publish`: pick the topic and publish the value when the
entry permits this kind.  `res` is the code the call returns if it is made. -/
def valueStep (c : MqttClient) (entry : ChannelEntry) (rds : Reading) (aggregate : Bool)
    (res : Int) : List Event :=
  let topic := if aggregate then entry.fullTopicAgg else entry.fullTopicRaw
  if (entry.sendAgg && aggregate) || (entry.sendRaw && !aggregate) then
    let payload := to_string rds.value
    [Event.mosquitto_publish CallSite.value topic payload.utf8ByteSize payload 0 c.retain res]
  else []

/-- Embedding of `MqttClient::publish` (mqtt.cpp 204-259).  `ch` is the shared
pointer (possibly null); `resAnnounce` and `resValue` are the codes returned by
the announce and the value call of `mosquitto_publish` if they are made.  The
result is the client afterwards and the events in order. -/
def MqttClient.publish (c : MqttClient) (ch : Option Channel) (rds : Reading)
    (aggregate : Bool) (resAnnounce resValue : Int) : MqttClient × List Event :=
  match ch with
  | none => (c, [])
  | some ch =>
    match c.mcs with
    | none => (c, [])
    | some _ =>
      let (chMap1, entry, ev1) := lookupOrCreate c ch
      let (entry2, ev2) := announceStep c entry resAnnounce
      let ev3 := valueStep c entry2 rds aggregate resValue
      ({ c with chMap := update chMap1 ch.name entry2 }, ev1 ++ ev2 ++ ev3)

/-- One invocation of `publish` with the return codes of its library calls. -/
structure PublishCall where
  ch : Option Channel
  rds : Reading
  aggregate : Bool
  resAnnounce : Int
  resValue : Int
  deriving DecidableEq, Repr

/-- A single `publish` invocation described by a `PublishCall`. -/
def MqttClient.publishCall (c : MqttClient) (p : PublishCall) : MqttClient × List Event :=
  c.publish p.ch p.rds p.aggregate p.resAnnounce p.resValue

/-- A sequence of `publish` invocations on one client: final client and all events. -/
def MqttClient.publishAll (c : MqttClient) (ps : List PublishCall) : MqttClient × List Event :=
  match ps with
  | [] => (c, [])
  | p :: rest =>
    let r := c.publishCall p
    let r2 := MqttClient.publishAll r.1 rest
    (r2.1, r.2 ++ r2.2)

/-! ## MqttClient::MqttClient -/

/-- A json-c value as far as the constructor distinguishes it: its
`json_object_get_type` is boolean, int, string or something else. -/
inductive json_value where
  | boolean (b : Bool)
  | int (i : Int)
  | string (s : String)
  | other
  deriving DecidableEq, Repr

/-- What the library and the system return to the constructor: the result of
`mosquitto_lib_init`, the major version reported by `mosquitto_lib_version`,
the macro `LIBMOSQUITTO_MAJOR` of the header compiled against, `getpid()`,
whether `mosquitto_new` returns null, and the result of `mosquitto_connect`
(used only when the call is made). -/
structure LibResults where
  lib_init : Int
  major : Int
  LIBMOSQUITTO_MAJOR : Int
  pid : Nat
  new_is_null : Bool
  connect : Int
  deriving DecidableEq, Repr

/-- Body of the `json_object_object_foreach` loop (mqtt.cpp 26-69) for one
key/value pair; a pair that matches no branch is only logged. -/
def setOption (c : MqttClient) (key : String) (v : json_value) : MqttClient :=
  match v with
  | json_value.boolean b =>
    if key = "enabled" then { c with enabled := b }
    else if key = "retain" then { c with retain := b }
    else if key = "rawAndAgg" then { c with rawAndAgg := b }
    else c
  | json_value.int i =>
    if key = "port" then { c with port := i }
    else if key = "keepalive" then { c with keepalive := i }
    else c
  | json_value.string s =>
    if key = "host" then { c with host := s }
    else if key = "user" then { c with user := s }
    else if key = "pass" then { c with pwd := s }
    else if key = "topic" then { c with topic := s }
    else c
  | json_value.other => c

/-- Lines 77-81 of the constructor: an empty topic becomes `vzlogger/`, any
other topic gets a `/` appended. -/
def defaultTopic (topic : String) : String :=
  if topic.length = 0 then "vzlogger/" else topic ++ "/"

/-- Lines 18-103 of the constructor for a non-null `option`: `_enabled(false)`,
the loop over the key/value pairs, the default topic, and the checks of
`mosquitto_lib_init` and of the library major version.  `init` holds the
members as mqtt.hpp (outside the sources) initialises them. -/
def readOptions (init : MqttClient) (kvs : List (String × json_value)) (lib : LibResults) :
    MqttClient :=
  let c := { init with enabled := false }
  let c := kvs.foldl (fun acc kv => setOption acc kv.1 kv.2) c
  let c := { c with topic := defaultTopic c.topic }
  let c := if lib.lib_init != MOSQ_ERR_SUCCESS then { c with enabled := false } else c
  if lib.major != lib.LIBMOSQUITTO_MAJOR then { c with enabled := false } else c

/-- Lines 105-152 of the constructor: when configured, create the handle with
`mosquitto_new` and connect; a null handle or a failed connect clears
`_enabled`.  The calls in between (`mosquitto_threaded_set`,
`mosquitto_username_pw_set`, the callback setters) change no member and their
results are only logged. -/
def createAndConnect (c : MqttClient) (lib : LibResults) : MqttClient :=
  if c.isConfigured then
    if lib.new_is_null then { c with mcs := none, enabled := false }
    else
      let c := { c with mcs := some { id := "vzlogger_" ++ toString lib.pid } }
      if lib.connect != MOSQ_ERR_SUCCESS then { c with enabled := false } else c
  else c

/-- Embedding of the constructor `MqttClient::MqttClient` (mqtt.cpp 18-153).
`option` is the configuration object (null, or its key/value pairs in iteration
order).  A null `option` throws `VZException`. -/
def MqttClient.new (init : MqttClient) (option : Option (List (String × json_value)))
    (lib : LibResults) : Except String MqttClient :=
  match option with
  | none => Except.error "config: mqtt no options!"
  | some kvs => Except.ok (createAndConnect (readOptions init kvs lib) lib)

/-! ## mqtt_client_thread -/

/-- Library and system calls made by `mqtt_client_thread`, with the codes
returned. -/
inductive ThreadEvent where
  | mosquitto_loop (timeout : Int) (max_packets : Int) (res : Int)
  | sleep (seconds : Nat)
  | mosquitto_reconnect (res : Int)
  deriving DecidableEq, Repr

/-- The `while (!endMqttClientThread)` loop (mqtt.cpp 292-310).  `iters` has one
element per iteration entered, that is per read of the stop flag that found it
clear: the code returned by `mosquitto_loop` and the code `mosquitto_reconnect`
returns if it is called.  The flag is found set after the last element. -/
def clientLoop (iters : List (Int × Int)) : List ThreadEvent :=
  match iters with
  | [] => []
  | (res, rres) :: rest =>
    let ev := ThreadEvent.mosquitto_loop 1000 1 res
    if res != MOSQ_ERR_SUCCESS then
      ev :: ThreadEvent.sleep 1 :: ThreadEvent.mosquitto_reconnect rres :: clientLoop rest
    else ev :: clientLoop rest

/-- Embedding of `mqtt_client_thread` (mqtt.cpp 286-315): nothing is done when
the global `mqttClient` is null. -/
def mqtt_client_thread (mqttClient : Option MqttClient) (iters : List (Int × Int)) :
    List ThreadEvent :=
  match mqttClient with
  | none => []
  | some _ => clientLoop iters

/-! ## Vocabulary of the properties -/

/-- The three kinds of topic `generateNames` derives. -/
inductive TopicKind where
  | raw
  | agg
  | uuid
  deriving DecidableEq, Repr

/-- The topic of a given kind stored in an entry. -/
def topicOf (e : ChannelEntry) (k : TopicKind) : String :=
  match k with
  | TopicKind.raw => e.fullTopicRaw
  | TopicKind.agg => e.fullTopicAgg
  | TopicKind.uuid => e.announceName

/-- The aggregation mode of a channel: none when it has no buffer. -/
def aggmodeOf (ch : Channel) : Option aggmode :=
  ch.buffer.map Buffer.get_aggmode

/-- Events that are a `mosquitto_publish` call made at the given site. -/
def isPublishAt (site : CallSite) (ev : Event) : Bool :=
  match ev with
  | Event.mosquitto_publish s _ _ _ _ _ _ => decide (s = site)
  | Event.generateNames _ _ => false

/-- Events that are a run of `generateNames` for a channel of the given name. -/
def isGenerateFor (name : String) (ev : Event) : Bool :=
  match ev with
  | Event.generateNames _ ch => decide (ch.name = name)
  | Event.mosquitto_publish _ _ _ _ _ _ _ => false

/-- Whether the cache holds an entry for the key whose `_announced` is set. -/
def announcedAt (c : MqttClient) (key : String) : Bool :=
  match find c.chMap key with
  | some e => e.announced
  | none => false

/-- Events of the client thread that are a `mosquitto_reconnect` call. -/
def isReconnect (ev : ThreadEvent) : Bool :=
  match ev with
  | ThreadEvent.mosquitto_reconnect _ => true
  | _ => false

/-- Events of the client thread that are a `mosquitto_loop` call which did not
return `MOSQ_ERR_SUCCESS`. -/
def isFailedLoop (ev : ThreadEvent) : Bool :=
  match ev with
  | ThreadEvent.mosquitto_loop _ _ res => res != MOSQ_ERR_SUCCESS
  | _ => false

/-- A concrete member state before the constructor body runs, used in the
examples: empty strings, port 0, no handle, empty cache. -/
def exampleInit : MqttClient :=
  { enabled := false, host := "", port := 0, keepalive := 10, user := "", pwd := "",
    topic := "", retain := false, rawAndAgg := false, mcs := none, isConnected := false,
    chMap := [] }

/-- Library results with which every step of the constructor succeeds. -/
def exampleLib : LibResults :=
  { lib_init := 0, major := 1, LIBMOSQUITTO_MAJOR := 1, pid := 4711, new_is_null := false,
    connect := 0 }

/-- The reading 42.5, that is 85 * 2^(-1). -/
def reading42_5 : Reading := { value := double.finite false 85 (-1) }

/-- Configuration with MQTT enabled for broker:1883 and no topic. -/
def exampleOption : List (String × json_value) :=
  [("enabled", json_value.boolean true), ("port", json_value.int 1883),
   ("host", json_value.string "broker")]

/-- The client the constructor builds from `exampleOption` when
`mosquitto_connect` fails (code 14, `MOSQ_ERR_ERRNO`): it holds a handle and is
disabled. -/
def connectFailedClient : MqttClient :=
  { enabled := false, host := "broker", port := 1883, keepalive := 10, user := "", pwd := "",
    topic := "vzlogger/", retain := false, rawAndAgg := false,
    mcs := some { id := "vzlogger_4711" }, isConnected := false, chMap := [] }

/-- A channel named power1 without a buffer. -/
def power1 : Channel := { name := "power1", uuid := "uuid-power1", buffer := none }

/-- The client the constructor builds from an enabled configuration that names a
host but no port: it is not configured and has no handle. -/
def noPortClient : MqttClient :=
  { enabled := true, host := "broker", port := 0, keepalive := 10, user := "", pwd := "",
    topic := "vzlogger/", retain := false, rawAndAgg := false, mcs := none,
    isConnected := false, chMap := [] }

/-- The client the constructor builds from `exampleOption` when every library
call succeeds. -/
def connectedClient : MqttClient :=
  { enabled := true, host := "broker", port := 1883, keepalive := 10, user := "", pwd := "",
    topic := "vzlogger/", retain := false, rawAndAgg := false,
    mcs := some { id := "vzlogger_4711" }, isConnected := false, chMap := [] }

/-- A channel named energy whose buffer aggregates. -/
def energy : Channel :=
  { name := "energy", uuid := "uuid-energy", buffer := some { get_aggmode := aggmode.other 1 } }

/-- Every cached entry carries the topics `generateNames` derives from the
client topic and the key it is stored under. -/
def CacheOk (c : MqttClient) : Prop :=
  ∀ k e, find c.chMap k = some e →
    e.fullTopicRaw = c.topic ++ k ++ "/raw" ∧ e.fullTopicAgg = c.topic ++ k ++ "/agg" ∧
    e.announceName = c.topic ++ k ++ "/uuid"

/-- Events that are an announce publish which returned `MOSQ_ERR_SUCCESS`. -/
def isAnnounceOk (ev : Event) : Bool :=
  match ev with
  | Event.mosquitto_publish CallSite.announce _ _ _ _ _ res => res == MOSQ_ERR_SUCCESS
  | _ => false

/-- Events that are an announce publish which returned a failure code. -/
def isAnnounceFailed (ev : Event) : Bool :=
  match ev with
  | Event.mosquitto_publish CallSite.announce _ _ _ _ _ res => res != MOSQ_ERR_SUCCESS
  | _ => false

/-- The channel name a publish call is for, if its channel is not null. -/
def PublishCall.name (p : PublishCall) : Option String :=
  p.ch.map Channel.name

/-- The client after a first non-aggregate publish for power1 on
`connectedClient`, all calls succeeding. -/
def afterPower1 : MqttClient :=
  (connectedClient.publish (some power1) reading42_5 false 0 0).1

/-- A second channel object named power1 with another uuid and a buffer. -/
def power1b : Channel :=
  { name := "power1", uuid := "uuid-other", buffer := some { get_aggmode := aggmode.other 2 } }

/-- The announce publish of an entry: `mosquitto_publish(_mcs, 0, _announceName,
_announceValue.length(), _announceValue, 0, retain)` returning `res`. -/
def announceEvent (e : ChannelEntry) (retain : Bool) (res : Int) : Event :=
  Event.mosquitto_publish CallSite.announce e.announceName e.announceValue.utf8ByteSize
    e.announceValue 0 retain res

/-! ## Auxiliary facts -/

theorem string_length_eq_zero (s : String) : s.length = 0 ↔ s = "" := by
  cases s with
  | mk l =>
    simp only [String.length]
    constructor
    · intro h; rw [List.length_eq_zero] at h; subst h; rfl
    · intro h; have := congrArg String.data h; simp at this; simp [this]

theorem string_eq_of_data (a b : String) (h : a.data = b.data) : a = b := by
  cases a; cases b; simp_all

/-- Topics built from a common prefix, a name and one of the suffixes `/raw`,
`/agg`, `/uuid` agree only for equal names and equal suffixes: the suffixes end
in different characters, and a common suffix cancels. -/
theorem topic_suffix_cases (p n1 n2 : String) (k1 k2 : TopicKind)
    (h : topicOf (ChannelEntry.default.generateNames p ⟨n1, "", none⟩) k1
       = topicOf (ChannelEntry.default.generateNames p ⟨n2, "", none⟩) k2) :
    n1 = n2 ∧ k1 = k2 := by
  cases k1 <;> cases k2 <;>
    simp only [topicOf, ChannelEntry.generateNames] at h <;>
    have h1 := congrArg String.data h <;>
    simp only [String.data_append, List.append_assoc] at h1 <;>
    have h2 := List.append_cancel_left h1
  case raw.raw => exact ⟨string_eq_of_data _ _ (List.append_cancel_right h2), rfl⟩
  case agg.agg => exact ⟨string_eq_of_data _ _ (List.append_cancel_right h2), rfl⟩
  case uuid.uuid => exact ⟨string_eq_of_data _ _ (List.append_cancel_right h2), rfl⟩
  all_goals
    have h3 := congrArg List.reverse h2
    simp [List.reverse_append] at h3

/-! ## Topic naming (generateNames) and configuration (isConfigured) -/

/-- C1: for every prefix p and channel with name n and uuid u, generateNames
produces rawTopic = p ++ n ++ "/raw", aggTopic = p ++ n ++ "/agg",
announceTopic = p ++ n ++ "/uuid" and announceValue = u; sendAgg tells whether
the buffer exists with a mode other than NONE; the members generateNames does
not assign are kept; and any channel with the same name, uuid and aggregation
mode gives the same result, from whatever entry it starts. -/
theorem generateNames_contract (e : ChannelEntry) (p : String) (ch : Channel) :
    (e.generateNames p ch).fullTopicRaw = p ++ ch.name ++ "/raw" ∧
    (e.generateNames p ch).fullTopicAgg = p ++ ch.name ++ "/agg" ∧
    (e.generateNames p ch).announceName = p ++ ch.name ++ "/uuid" ∧
    (e.generateNames p ch).announceValue = ch.uuid ∧
    ((e.generateNames p ch).sendAgg = true ↔
      ∃ m, aggmodeOf ch = some m ∧ m ≠ aggmode.NONE) ∧
    (e.generateNames p ch).announced = e.announced ∧
    (e.generateNames p ch).sendRaw = e.sendRaw ∧
    ∀ (e2 : ChannelEntry) (ch2 : Channel),
      ch2.name = ch.name → ch2.uuid = ch.uuid → aggmodeOf ch2 = aggmodeOf ch →
      e2.generateNames p ch2 =
        { e.generateNames p ch with announced := e2.announced, sendRaw := e2.sendRaw } := by
  refine ⟨rfl, rfl, rfl, rfl, ?_, rfl, rfl, ?_⟩
  · cases hb : ch.buffer <;> simp [ChannelEntry.generateNames, aggmodeOf, hb]
  · intro e2 ch2 hn hu hm
    cases ch with
    | mk n u b =>
      cases ch2 with
      | mk n2 u2 b2 =>
        simp only at hn hu
        subst hn hu
        cases b <;> cases b2 <;> simp_all [ChannelEntry.generateNames, aggmodeOf]

/-- C7: isConfigured() is true exactly when enabled is set, port is not 0 and
host is not empty; with enabled, host "broker" and port 0 it is false, with
port 1883 it is true. -/
theorem isConfigured_iff (c : MqttClient) :
    (c.isConfigured = true ↔ (c.enabled = true ∧ c.port ≠ 0 ∧ c.host ≠ "")) ∧
    ({ c with enabled := true, port := 0, host := "broker" } : MqttClient).isConfigured = false ∧
    ({ c with enabled := true, port := 1883, host := "broker" } : MqttClient).isConfigured = true := by
  refine ⟨?_, by simp [MqttClient.isConfigured], by simp [MqttClient.isConfigured]; decide⟩
  have hl := string_length_eq_zero c.host
  cases he : c.enabled <;> simp [MqttClient.isConfigured, he, hl]

/-- C8: for every prefix p, names n1, n2 and kinds k1, k2, the topics that
generateNames derives coincide only for the same name and the same kind. -/
theorem topics_collision_free (p : String) (e1 e2 : ChannelEntry) (ch1 ch2 : Channel)
    (k1 k2 : TopicKind)
    (h : topicOf (e1.generateNames p ch1) k1 = topicOf (e2.generateNames p ch2) k2) :
    ch1.name = ch2.name ∧ k1 = k2 := by
  apply topic_suffix_cases p ch1.name ch2.name k1 k2
  cases k1 <;> cases k2 <;> exact h

/-- Witness for C8: the raw topics of two channels named "power1" coincide. -/
theorem topics_collision_free_witness :
    topicOf (ChannelEntry.default.generateNames "vzlogger/" ⟨"power1", "u1", none⟩) TopicKind.raw
      = topicOf (ChannelEntry.default.generateNames "vzlogger/"
          ⟨"power1", "u2", some ⟨aggmode.other 1⟩⟩) TopicKind.raw ∧
    (("power1" : String) = "power1" ∧ TopicKind.raw = TopicKind.raw) :=
  ⟨rfl, topics_collision_free "vzlogger/" ChannelEntry.default ChannelEntry.default
    ⟨"power1", "u1", none⟩ ⟨"power1", "u2", some ⟨aggmode.other 1⟩⟩ TopicKind.raw TopicKind.raw rfl⟩

/-! ## Facts about the cache and the steps of publish -/

theorem find_update (m : List (String × ChannelEntry)) (k k2 : String) (e : ChannelEntry) :
    find (update m k e) k2 =
      if k = k2 then (find m k).map (fun _ => e) else find m k2 := by
  induction m with
  | nil => simp [update, find]
  | cons x rest ih =>
    obtain ⟨k0, e0⟩ := x
    by_cases h0 : k0 = k
    · subst h0
      by_cases h2 : k0 = k2
      · simp [update, find, h2]
      · simp [update, find, h2]
    · by_cases h2 : k0 = k2
      · subst h2
        simp [update, find, h0, Ne.symm h0]
      · simp [update, find, h0, h2, ih]

theorem lookupOrCreate_find (c : MqttClient) (ch : Channel) :
    find (lookupOrCreate c ch).1 ch.name = some (lookupOrCreate c ch).2.1 := by
  unfold lookupOrCreate
  cases h : find c.chMap ch.name <;> simp [find, h]

theorem lookupOrCreate_find_other (c : MqttClient) (ch : Channel) (k : String)
    (hk : ch.name ≠ k) : find (lookupOrCreate c ch).1 k = find c.chMap k := by
  unfold lookupOrCreate
  cases h : find c.chMap ch.name <;> simp [find, hk]

theorem lookupOrCreate_hit (c : MqttClient) (ch : Channel) (e : ChannelEntry)
    (h : find c.chMap ch.name = some e) : lookupOrCreate c ch = (c.chMap, e, []) := by
  simp [lookupOrCreate, h]

theorem publish_some (c : MqttClient) (ch : Channel) (h : mosquitto) (hm : c.mcs = some h)
    (rds : Reading) (agg : Bool) (ra rv : Int) :
    c.publish (some ch) rds agg ra rv =
      ({ c with chMap := (update (lookupOrCreate c ch).1 ch.name
            (announceStep c (lookupOrCreate c ch).2.1 ra).1) },
       (lookupOrCreate c ch).2.2 ++ (announceStep c (lookupOrCreate c ch).2.1 ra).2 ++
         valueStep c (announceStep c (lookupOrCreate c ch).2.1 ra).1 rds agg rv) := by
  simp [MqttClient.publish, hm]

/-- After a publish that runs, the entry of the channel is the resolved entry
after the announce step, and every other key is looked up as before. -/
theorem publish_find (c : MqttClient) (ch : Channel) (h : mosquitto) (hm : c.mcs = some h)
    (rds : Reading) (agg : Bool) (ra rv : Int) (k : String) :
    find (c.publish (some ch) rds agg ra rv).1.chMap k =
      if ch.name = k then some (announceStep c (lookupOrCreate c ch).2.1 ra).1
      else find c.chMap k := by
  rw [publish_some c ch h hm]
  simp only [find_update]
  by_cases hk : ch.name = k
  · subst hk; simp [lookupOrCreate_find]
  · simp [hk, lookupOrCreate_find_other c ch k hk]

theorem announceStep_fields (c : MqttClient) (e : ChannelEntry) (res : Int) :
    (announceStep c e res).1 = { e with announced := (announceStep c e res).1.announced } ∧
    (e.announced = true → (announceStep c e res).1.announced = true) := by
  unfold announceStep
  split
  · split <;> simp
  · simp

theorem publish_mcs (c : MqttClient) (p : PublishCall) :
    (c.publishCall p).1.mcs = c.mcs ∧ (c.publishCall p).1.topic = c.topic ∧
    (c.publishCall p).1.retain = c.retain ∧ (c.publishCall p).1.rawAndAgg = c.rawAndAgg := by
  unfold MqttClient.publishCall MqttClient.publish
  cases p.ch with
  | none => simp
  | some ch => cases hm : c.mcs <;> simp [hm]

/-! ## The guards of publish -/

/-- C2 (counterexample): the client constructed from an enabled configuration
whose initial connect fails is not configured but keeps its handle; publish on
it creates a cache entry and issues the announce and the value publish. -/
theorem publish_unconfigured_not_noop :
    MqttClient.new exampleInit (some exampleOption) { exampleLib with connect := 14 }
      = Except.ok connectFailedClient ∧
    connectFailedClient.isConfigured = false ∧
    find connectFailedClient.chMap "power1" = none ∧
    find (connectFailedClient.publish (some power1) reading42_5 false 0 0).1.chMap "power1"
      = some { announced := true, sendRaw := true, sendAgg := false,
               fullTopicRaw := "vzlogger/power1/raw", fullTopicAgg := "vzlogger/power1/agg",
               announceName := "vzlogger/power1/uuid", announceValue := "uuid-power1" } ∧
    (connectFailedClient.publish (some power1) reading42_5 false 0 0).2
      = [Event.generateNames "vzlogger/" power1,
         Event.mosquitto_publish CallSite.announce "vzlogger/power1/uuid" 11 "uuid-power1" 0 false 0,
         Event.mosquitto_publish CallSite.value "vzlogger/power1/raw" 9 "42.500000" 0 false 0] := by
  refine ⟨?_, by decide, by decide, by decide, by decide⟩
  rfl

theorem foldl_setOption_mcs (kvs : List (String × json_value)) (c : MqttClient) :
    (kvs.foldl (fun acc kv => setOption acc kv.1 kv.2) c).mcs = c.mcs := by
  induction kvs generalizing c with
  | nil => rfl
  | cons kv rest ih =>
    simp only [List.foldl_cons]
    rw [ih]
    unfold setOption
    split <;> (repeat (first | rfl | split))

theorem readOptions_mcs (init : MqttClient) (kvs : List (String × json_value))
    (lib : LibResults) : (readOptions init kvs lib).mcs = init.mcs := by
  have hf := foldl_setOption_mcs kvs { init with enabled := false }
  unfold readOptions
  simp only []
  split <;> split <;> simp [hf]

theorem createAndConnect_mcs (c : MqttClient) (lib : LibResults) (hi : c.mcs = none)
    (hc : (createAndConnect c lib).isConfigured = false)
    (hl : lib.connect = MOSQ_ERR_SUCCESS) : (createAndConnect c lib).mcs = none := by
  unfold createAndConnect at hc ⊢
  by_cases hcfg : c.isConfigured = true
  · by_cases hnull : lib.new_is_null = true
    · simp [hcfg, hnull]
    · simp only [hcfg, hnull, hl, bne_self_eq_false, if_true, if_false] at hc
      simp only [Bool.false_eq_true, if_false] at hc
      simp only [MqttClient.isConfigured] at hc hcfg
      rw [hcfg] at hc
      exact absurd hc (by decide)
  · simp [hcfg, hi]

/-- A constructed client that is not configured has no handle, unless the
initial connect was made and failed. -/
theorem new_unconfigured_mcs (init : MqttClient) (option : Option (List (String × json_value)))
    (lib : LibResults) (c : MqttClient) (hi : init.mcs = none)
    (hn : MqttClient.new init option lib = Except.ok c) (hc : c.isConfigured = false)
    (hl : lib.connect = MOSQ_ERR_SUCCESS) : c.mcs = none := by
  cases option with
  | none => simp [MqttClient.new] at hn
  | some kvs =>
    simp only [MqttClient.new] at hn
    injection hn with hn
    subst hn
    exact createAndConnect_mcs _ lib ((readOptions_mcs init kvs lib).trans hi) hc hl

/-- C2 (amended): publish called with a null channel, with an absent client
handle, or on a constructed client that is not configured for a reason other
than a failed initial connect (such a client has no handle) is a no-op: the
client and its cache are unchanged and no event occurs. -/
theorem publish_noop (c : MqttClient) (ch : Option Channel) (rds : Reading) (agg : Bool)
    (ra rv : Int)
    (h : ch = none ∨ c.mcs = none ∨
      ∃ init option lib, init.mcs = none ∧ MqttClient.new init option lib = Except.ok c ∧
        c.isConfigured = false ∧ lib.connect = MOSQ_ERR_SUCCESS) :
    c.publish ch rds agg ra rv = (c, []) := by
  have hcases : ch = none ∨ c.mcs = none := by
    rcases h with h | h | ⟨init, option, lib, hi, hn, hc, hl⟩
    · exact Or.inl h
    · exact Or.inr h
    · exact Or.inr (new_unconfigured_mcs init option lib c hi hn hc hl)
  rcases hcases with h | h
  · subst h; rfl
  · cases ch with
    | none => rfl
    | some ch0 =>
      simp only [MqttClient.publish]
      split
      · rfl
      · simp_all

/-- Witness for C2 (amended): the client constructed without a port is not
configured, and publish on it does nothing. -/
theorem publish_noop_witness :
    (MqttClient.new exampleInit
        (some [("enabled", json_value.boolean true), ("host", json_value.string "broker")])
        exampleLib = Except.ok noPortClient ∧ noPortClient.isConfigured = false) ∧
    noPortClient.publish (some power1) reading42_5 false 0 0 = (noPortClient, []) :=
  ⟨⟨rfl, by decide⟩,
   publish_noop noPortClient (some power1) reading42_5 false 0 0
    (Or.inr (Or.inr ⟨exampleInit,
      some [("enabled", json_value.boolean true), ("host", json_value.string "broker")],
      exampleLib, rfl, rfl, by decide, rfl⟩))⟩

/-! ## Resolution of the cache entry -/

/-- C3: on the first publish for a channel whose buffer has an aggregation mode
other than NONE, the entry created has sendAgg = true, and sendRaw = false when
rawAndAgg is false, sendRaw = true when rawAndAgg is true. -/
theorem first_publish_flags (c : MqttClient) (h : mosquitto) (ch : Channel) (m : aggmode)
    (rds : Reading) (agg : Bool) (ra rv : Int)
    (hm : c.mcs = some h) (hmiss : find c.chMap ch.name = none)
    (hb : aggmodeOf ch = some m) (hne : m ≠ aggmode.NONE) :
    Event.generateNames c.topic ch ∈ (c.publish (some ch) rds agg ra rv).2 ∧
    ∃ e, find (c.publish (some ch) rds agg ra rv).1.chMap ch.name = some e ∧
      e.sendAgg = true ∧
      (c.rawAndAgg = false → e.sendRaw = false) ∧
      (c.rawAndAgg = true → e.sendRaw = true) := by
  have hagg : (ChannelEntry.default.generateNames c.topic ch).sendAgg = true := by
    cases hbuf : ch.buffer <;> simp_all [ChannelEntry.generateNames, aggmodeOf]
  have hl : lookupOrCreate c ch =
      ((ch.name, { ChannelEntry.default.generateNames c.topic ch with sendRaw := c.rawAndAgg })
          :: c.chMap,
        { ChannelEntry.default.generateNames c.topic ch with sendRaw := c.rawAndAgg },
        [Event.generateNames c.topic ch]) := by
    simp only [lookupOrCreate, hmiss]
    have hraw : (ChannelEntry.default.generateNames c.topic ch).sendRaw = true := rfl
    generalize ChannelEntry.default.generateNames c.topic ch = g at hagg hraw ⊢
    cases hr : c.rawAndAgg <;> cases g <;> simp_all
  constructor
  · rw [publish_some c ch h hm, hl]; simp
  · refine ⟨_, (publish_find c ch h hm rds agg ra rv ch.name).trans (if_pos rfl), ?_⟩
    have hf := (announceStep_fields c (lookupOrCreate c ch).2.1 ra).1
    rw [hf, hl]
    refine ⟨hagg, ?_, ?_⟩ <;> intro hr <;> simp [hr]

/-- Witness for C3: the first publish for the aggregating channel energy on a
client without rawAndAgg. -/
theorem first_publish_flags_witness :
    Event.generateNames connectedClient.topic energy ∈
      (connectedClient.publish (some energy) reading42_5 true 0 0).2 ∧
    ∃ e, find (connectedClient.publish (some energy) reading42_5 true 0 0).1.chMap energy.name
        = some e ∧
      e.sendAgg = true ∧
      (connectedClient.rawAndAgg = false → e.sendRaw = false) ∧
      (connectedClient.rawAndAgg = true → e.sendRaw = true) :=
  first_publish_flags connectedClient { id := "vzlogger_4711" } energy (aggmode.other 1)
    reading42_5 true 0 0 rfl (by decide) rfl (by decide)

/-! ## The value publish -/

theorem lookupOrCreate_no_publish (c : MqttClient) (ch : Channel) (site : CallSite) :
    (lookupOrCreate c ch).2.2.filter (isPublishAt site) = [] := by
  unfold lookupOrCreate
  cases find c.chMap ch.name <;> simp [isPublishAt]

theorem announceStep_no_value (c : MqttClient) (e : ChannelEntry) (res : Int) :
    (announceStep c e res).2.filter (isPublishAt CallSite.value) = [] := by
  unfold announceStep
  split
  · split <;> simp [isPublishAt]
  · simp

theorem valueStep_no_announce (c : MqttClient) (e : ChannelEntry) (rds : Reading) (agg : Bool)
    (res : Int) : (valueStep c e rds agg res).filter (isPublishAt CallSite.announce) = [] := by
  unfold valueStep
  split <;> simp [isPublishAt]

theorem publish_value_events (c : MqttClient) (ch : Channel) (h : mosquitto)
    (hm : c.mcs = some h) (rds : Reading) (agg : Bool) (ra rv : Int) :
    (c.publish (some ch) rds agg ra rv).2.filter (isPublishAt CallSite.value) =
      valueStep c (announceStep c (lookupOrCreate c ch).2.1 ra).1 rds agg rv := by
  rw [publish_some c ch h hm]
  simp only [List.filter_append, lookupOrCreate_no_publish, announceStep_no_value,
    List.nil_append]
  unfold valueStep
  split <;> simp [isPublishAt]

/-- C5: a publish with a non-null channel on a client with a handle issues a
value publish exactly when (sendAgg and aggregate) or (sendRaw and not
aggregate) holds for the entry of the channel; then there is exactly one, to
aggTopic if aggregate and to rawTopic otherwise, with QoS 0 and the configured
retain flag; otherwise there is none.  An entry that was cached before the call
is that entry, up to its announced flag. -/
theorem value_publish_rule (c : MqttClient) (h : mosquitto) (ch : Channel) (rds : Reading)
    (agg : Bool) (ra rv : Int) (hm : c.mcs = some h) :
    ∃ e, find (c.publish (some ch) rds agg ra rv).1.chMap ch.name = some e ∧
      (∀ e0, find c.chMap ch.name = some e0 → e = { e0 with announced := e.announced }) ∧
      (((e.sendAgg = true ∧ agg = true) ∨ (e.sendRaw = true ∧ agg = false)) →
        (c.publish (some ch) rds agg ra rv).2.filter (isPublishAt CallSite.value) =
          [Event.mosquitto_publish CallSite.value
            (if agg = true then e.fullTopicAgg else e.fullTopicRaw)
            (to_string rds.value).utf8ByteSize (to_string rds.value) 0 c.retain rv]) ∧
      (¬ ((e.sendAgg = true ∧ agg = true) ∨ (e.sendRaw = true ∧ agg = false)) →
        (c.publish (some ch) rds agg ra rv).2.filter (isPublishAt CallSite.value) = []) := by
  refine ⟨_, (publish_find c ch h hm rds agg ra rv ch.name).trans (if_pos rfl), ?_, ?_, ?_⟩
  · intro e0 he0
    have hf := (announceStep_fields c (lookupOrCreate c ch).2.1 ra).1
    rw [lookupOrCreate_hit c ch e0 he0] at hf ⊢
    exact hf
  · intro hcond
    rw [publish_value_events c ch h hm]
    generalize (announceStep c (lookupOrCreate c ch).2.1 ra).1 = e at hcond ⊢
    unfold valueStep
    cases agg <;> simp_all
  · intro hcond
    rw [publish_value_events c ch h hm]
    generalize (announceStep c (lookupOrCreate c ch).2.1 ra).1 = e at hcond ⊢
    unfold valueStep
    cases agg <;> simp_all

/-- Witness for C5: an aggregate reading for the aggregating channel energy. -/
theorem value_publish_rule_witness :
    ∃ e, find (connectedClient.publish (some energy) reading42_5 true 0 0).1.chMap energy.name
        = some e ∧
      (∀ e0, find connectedClient.chMap energy.name = some e0 →
        e = { e0 with announced := e.announced }) ∧
      (((e.sendAgg = true ∧ true = true) ∨ (e.sendRaw = true ∧ true = false)) →
        (connectedClient.publish (some energy) reading42_5 true 0 0).2.filter
            (isPublishAt CallSite.value) =
          [Event.mosquitto_publish CallSite.value
            (if true = true then e.fullTopicAgg else e.fullTopicRaw)
            (to_string reading42_5.value).utf8ByteSize (to_string reading42_5.value) 0
            connectedClient.retain 0]) ∧
      (¬ ((e.sendAgg = true ∧ true = true) ∨ (e.sendRaw = true ∧ true = false)) →
        (connectedClient.publish (some energy) reading42_5 true 0 0).2.filter
            (isPublishAt CallSite.value) = []) :=
  value_publish_rule connectedClient { id := "vzlogger_4711" } energy reading42_5 true 0 0 rfl

/-! ## Topics of cached entries and the payload -/

theorem publishAll_fields (c : MqttClient) (ps : List PublishCall) :
    (c.publishAll ps).1.mcs = c.mcs ∧ (c.publishAll ps).1.topic = c.topic ∧
    (c.publishAll ps).1.retain = c.retain ∧ (c.publishAll ps).1.rawAndAgg = c.rawAndAgg := by
  induction ps generalizing c with
  | nil => simp [MqttClient.publishAll]
  | cons p rest ih =>
    simp only [MqttClient.publishAll]
    have h1 := publish_mcs c p
    have h2 := ih (c.publishCall p).1
    exact ⟨h2.1.trans h1.1, h2.2.1.trans h1.2.1, h2.2.2.1.trans h1.2.2.1,
      h2.2.2.2.trans h1.2.2.2⟩

theorem lookupOrCreate_topics (c : MqttClient) (ch : Channel) (hok : CacheOk c) :
    (lookupOrCreate c ch).2.1.fullTopicRaw = c.topic ++ ch.name ++ "/raw" ∧
    (lookupOrCreate c ch).2.1.fullTopicAgg = c.topic ++ ch.name ++ "/agg" ∧
    (lookupOrCreate c ch).2.1.announceName = c.topic ++ ch.name ++ "/uuid" := by
  cases hf : find c.chMap ch.name with
  | some e => rw [lookupOrCreate_hit c ch e hf]; exact hok _ _ hf
  | none =>
    simp only [lookupOrCreate, hf]
    split <;> simp [ChannelEntry.generateNames]

theorem publish_cacheOk (c : MqttClient) (p : PublishCall) (hok : CacheOk c) :
    CacheOk (c.publishCall p).1 := by
  unfold MqttClient.publishCall
  cases hch : p.ch with
  | none => exact hok
  | some ch =>
    cases hm : c.mcs with
    | none => simpa [MqttClient.publish, hm] using hok
    | some h =>
      intro k e hf
      rw [publish_find c ch h hm] at hf
      have ht : (c.publish (some ch) p.rds p.aggregate p.resAnnounce p.resValue).1.topic
          = c.topic := by rw [publish_some c ch h hm]
      rw [ht]
      by_cases hk : ch.name = k
      · rw [if_pos hk] at hf
        injection hf with hf
        have hfld := (announceStep_fields c (lookupOrCreate c ch).2.1 p.resAnnounce).1
        rw [hf] at hfld
        have htop := lookupOrCreate_topics c ch hok
        rw [← hk, hfld]
        exact htop
      · rw [if_neg hk] at hf
        exact hok k e hf

theorem publishAll_cacheOk (c : MqttClient) (ps : List PublishCall) (hok : CacheOk c) :
    CacheOk (c.publishAll ps).1 := by
  induction ps generalizing c with
  | nil => exact hok
  | cons p rest ih => exact ih _ (publish_cacheOk c p hok)

theorem cacheOk_empty (c : MqttClient) (h0 : c.chMap = []) : CacheOk c := by
  intro k e hf
  rw [h0] at hf
  simp [find] at hf

/-- C6 (counterexample): on the client constructed without a topic (prefix
"vzlogger/"), a non-aggregate reading 42.5 for the channel power1 is published
to "vzlogger/power1/raw" with payload "42.500000" of length 9; no publish with
payload "42.5" occurs. -/
theorem payload_not_shortest :
    MqttClient.new exampleInit (some exampleOption) exampleLib = Except.ok connectedClient ∧
    (connectedClient.publish (some power1) reading42_5 false 0 0).2.filter
        (isPublishAt CallSite.value) =
      [Event.mosquitto_publish CallSite.value "vzlogger/power1/raw" 9 "42.500000" 0 false 0] ∧
    Event.mosquitto_publish CallSite.value "vzlogger/power1/raw" 4 "42.5" 0 false 0 ∉
      (connectedClient.publish (some power1) reading42_5 false 0 0).2 := by
  refine ⟨rfl, by decide, by decide⟩

/-- C6 (amended): on a client with topic prefix "vzlogger/" (the default when no
topic is configured), after any earlier publish calls, publishing a
non-aggregate reading of value 42.5 for a channel named "power1" whose raw kind
is enabled issues exactly one value publish, with topic "vzlogger/power1/raw"
and payload "42.500000" (payload length 9). -/
theorem power1_raw_publish (c0 : MqttClient) (h : mosquitto) (ps : List PublishCall)
    (ch : Channel) (ra rv : Int)
    (h0 : c0.chMap = []) (ht : c0.topic = "vzlogger/") (hm : c0.mcs = some h)
    (hn : ch.name = "power1")
    (hraw : ∃ e, find ((c0.publishAll ps).1.publish (some ch) reading42_5 false ra rv).1.chMap
        "power1" = some e ∧ e.sendRaw = true) :
    defaultTopic "" = "vzlogger/" ∧
    ((c0.publishAll ps).1.publish (some ch) reading42_5 false ra rv).2.filter
        (isPublishAt CallSite.value) =
      [Event.mosquitto_publish CallSite.value "vzlogger/power1/raw" 9 "42.500000" 0
        c0.retain rv] := by
  refine ⟨by decide, ?_⟩
  obtain ⟨hm1, ht1, hr1, _⟩ := publishAll_fields c0 ps
  have hok := publishAll_cacheOk c0 ps (cacheOk_empty c0 h0)
  generalize (c0.publishAll ps).1 = c at hm1 ht1 hr1 hok hraw ⊢
  rw [hm] at hm1
  obtain ⟨e, hf, hs⟩ := hraw
  rw [publish_find c ch h hm1, if_pos hn] at hf
  injection hf with hf
  rw [publish_value_events c ch h hm1, hf]
  have hfld := (announceStep_fields c (lookupOrCreate c ch).2.1 ra).1
  rw [hf] at hfld
  have htop : e.fullTopicRaw = c.topic ++ ch.name ++ "/raw" :=
    (congrArg ChannelEntry.fullTopicRaw hfld).trans (lookupOrCreate_topics c ch hok).1
  have hp : to_string reading42_5.value = "42.500000" := by decide
  have hlen : ("42.500000" : String).utf8ByteSize = 9 := by decide
  have hcat : ("vzlogger/" : String) ++ "power1" ++ "/raw" = "vzlogger/power1/raw" := by decide
  simp [valueStep, hs, hp, htop, ht1, ht, hn, hr1, hlen, hcat]

/-- Witness for C6 (amended): the reading is published after an earlier
aggregate publish for the channel energy. -/
theorem power1_raw_publish_witness :
    defaultTopic "" = "vzlogger/" ∧
    ((connectedClient.publishAll [⟨some energy, reading42_5, true, 0, 0⟩]).1.publish
        (some power1) reading42_5 false 0 0).2.filter (isPublishAt CallSite.value) =
      [Event.mosquitto_publish CallSite.value "vzlogger/power1/raw" 9 "42.500000" 0
        connectedClient.retain 0] :=
  power1_raw_publish connectedClient { id := "vzlogger_4711" }
    [⟨some energy, reading42_5, true, 0, 0⟩] power1 0 0 rfl rfl rfl rfl
    ⟨{ announced := true, sendRaw := true, sendAgg := false,
       fullTopicRaw := "vzlogger/power1/raw", fullTopicAgg := "vzlogger/power1/agg",
       announceName := "vzlogger/power1/uuid", announceValue := "uuid-power1" },
     by decide, rfl⟩

/-! ## Entries are created once and only their announced flag changes -/

theorem lookupOrCreate_generate_other (c : MqttClient) (ch : Channel) (k : String)
    (hk : ch.name ≠ k) : (lookupOrCreate c ch).2.2.filter (isGenerateFor k) = [] := by
  unfold lookupOrCreate
  cases find c.chMap ch.name <;> simp [isGenerateFor, hk]

theorem announceStep_no_generate (c : MqttClient) (e : ChannelEntry) (res : Int) (k : String) :
    (announceStep c e res).2.filter (isGenerateFor k) = [] := by
  unfold announceStep
  split
  · split <;> simp [isGenerateFor]
  · simp

theorem valueStep_no_generate (c : MqttClient) (e : ChannelEntry) (rds : Reading) (agg : Bool)
    (res : Int) (k : String) : (valueStep c e rds agg res).filter (isGenerateFor k) = [] := by
  unfold valueStep
  split <;> simp [isGenerateFor]

/-- One publish call keeps every cached entry up to its announced flag, which
it never clears, and does not run generateNames for a cached key. -/
theorem publish_entry_stable (c : MqttClient) (p : PublishCall) (k : String) (e : ChannelEntry)
    (hf : find c.chMap k = some e) :
    ∃ e2, find (c.publishCall p).1.chMap k = some e2 ∧
      e2 = { e with announced := e2.announced } ∧
      (e.announced = true → e2.announced = true) ∧
      (c.publishCall p).2.filter (isGenerateFor k) = [] := by
  unfold MqttClient.publishCall
  cases hch : p.ch with
  | none => exact ⟨e, hf, rfl, id, rfl⟩
  | some ch =>
    cases hm : c.mcs with
    | none =>
      have hno : c.publish (some ch) p.rds p.aggregate p.resAnnounce p.resValue = (c, []) := by
        simp [MqttClient.publish, hm]
      rw [hno]
      exact ⟨e, hf, rfl, id, rfl⟩
    | some h =>
      by_cases hk : ch.name = k
      · subst hk
        have hl := lookupOrCreate_hit c ch e hf
        have hfld := announceStep_fields c e p.resAnnounce
        refine ⟨(announceStep c e p.resAnnounce).1, ?_, hfld.1, hfld.2, ?_⟩
        · rw [publish_find c ch h hm, if_pos rfl, hl]
        · rw [publish_some c ch h hm, hl]
          simp only [List.filter_append, announceStep_no_generate, valueStep_no_generate,
            List.filter_nil, List.append_nil]
      · refine ⟨e, ?_, rfl, id, ?_⟩
        · rw [publish_find c ch h hm, if_neg hk]; exact hf
        · rw [publish_some c ch h hm]
          simp only [List.filter_append, announceStep_no_generate, valueStep_no_generate,
            lookupOrCreate_generate_other c ch k hk, List.append_nil]

theorem publishAll_entry_stable (c : MqttClient) (ps : List PublishCall) (k : String)
    (e : ChannelEntry) (hf : find c.chMap k = some e) :
    ∃ e2, find (c.publishAll ps).1.chMap k = some e2 ∧
      e2 = { e with announced := e2.announced } ∧
      (e.announced = true → e2.announced = true) ∧
      (c.publishAll ps).2.filter (isGenerateFor k) = [] := by
  induction ps generalizing c e with
  | nil => exact ⟨e, hf, rfl, id, rfl⟩
  | cons p rest ih =>
    obtain ⟨e1, hf1, he1, ha1, hg1⟩ := publish_entry_stable c p k e hf
    obtain ⟨e2, hf2, he2, ha2, hg2⟩ := ih (c.publishCall p).1 e1 hf1
    refine ⟨e2, hf2, ?_, fun ha => ha2 (ha1 ha), ?_⟩
    · rw [he2, he1]
    · simp only [MqttClient.publishAll, List.filter_append, hg1, hg2, List.append_nil]

/-- C9: once the cache holds an entry for a channel name, every later sequence
of publish calls (any channels, readings and return codes) leaves the entry in
the cache with the same rawTopic, aggTopic, announceTopic, announceValue,
sendRaw and sendAgg, changes announced at most from false to true, and never
runs generateNames for that name again. -/
theorem resolution_idempotent (c : MqttClient) (k : String) (e : ChannelEntry)
    (ps : List PublishCall) (hf : find c.chMap k = some e) :
    ∃ e2, find (c.publishAll ps).1.chMap k = some e2 ∧
      e2.fullTopicRaw = e.fullTopicRaw ∧ e2.fullTopicAgg = e.fullTopicAgg ∧
      e2.announceName = e.announceName ∧ e2.announceValue = e.announceValue ∧
      e2.sendRaw = e.sendRaw ∧ e2.sendAgg = e.sendAgg ∧
      (e.announced = true → e2.announced = true) ∧
      (c.publishAll ps).2.filter (isGenerateFor k) = [] := by
  obtain ⟨e2, hf2, he2, ha2, hg2⟩ := publishAll_entry_stable c ps k e hf
  refine ⟨e2, hf2, ?_, ?_, ?_, ?_, ?_, ?_, ha2, hg2⟩ <;> rw [he2]

/-- Witness for C9: the entry created by the first publish for power1 survives
later publishes for power1 (through another channel object) and for energy. -/
theorem resolution_idempotent_witness :
    find afterPower1.chMap "power1" =
      some { announced := true, sendRaw := true, sendAgg := false,
             fullTopicRaw := "vzlogger/power1/raw", fullTopicAgg := "vzlogger/power1/agg",
             announceName := "vzlogger/power1/uuid", announceValue := "uuid-power1" } ∧
    ∃ e2, find (afterPower1.publishAll
          [⟨some power1b, reading42_5, true, 5, 5⟩, ⟨some energy, reading42_5, false, 0, 0⟩]).1.chMap
          "power1" = some e2 ∧
      e2.fullTopicRaw = "vzlogger/power1/raw" ∧ e2.fullTopicAgg = "vzlogger/power1/agg" ∧
      e2.announceName = "vzlogger/power1/uuid" ∧ e2.announceValue = "uuid-power1" ∧
      e2.sendRaw = true ∧ e2.sendAgg = false ∧
      (true = true → e2.announced = true) ∧
      (afterPower1.publishAll
          [⟨some power1b, reading42_5, true, 5, 5⟩, ⟨some energy, reading42_5, false, 0, 0⟩]).2.filter
        (isGenerateFor "power1") = [] :=
  ⟨by decide,
   resolution_idempotent afterPower1 "power1"
    { announced := true, sendRaw := true, sendAgg := false,
      fullTopicRaw := "vzlogger/power1/raw", fullTopicAgg := "vzlogger/power1/agg",
      announceName := "vzlogger/power1/uuid", announceValue := "uuid-power1" }
    [⟨some power1b, reading42_5, true, 5, 5⟩, ⟨some energy, reading42_5, false, 0, 0⟩]
    (by decide)⟩

/-! ## The announce publish -/

theorem announceStep_cases (c : MqttClient) (e : ChannelEntry) (res : Int) :
    (e.announced = false ∧ e.announceName.length ≠ 0 ∧
      announceStep c e res =
        ({ e with announced := decide (res = MOSQ_ERR_SUCCESS) },
         [Event.mosquitto_publish CallSite.announce e.announceName
            e.announceValue.utf8ByteSize e.announceValue 0 c.retain res])) ∨
    ((e.announced = true ∨ e.announceName.length = 0) ∧ announceStep c e res = (e, [])) := by
  unfold announceStep
  cases ha : e.announced
  · by_cases hl : e.announceName.length = 0
    · right; simp [hl]
    · left
      refine ⟨rfl, hl, ?_⟩
      by_cases hr : res = MOSQ_ERR_SUCCESS
      · simp [hl, hr]
      · simp only [hl, hr]
        cases e
        simp_all
  · right; simp

theorem publish_announce_events (c : MqttClient) (ch : Channel) (h : mosquitto)
    (hm : c.mcs = some h) (rds : Reading) (agg : Bool) (ra rv : Int) (f : Event → Bool)
    (hf : ∀ s t n pl q r x, f (Event.mosquitto_publish s t n pl q r x) = true →
      s = CallSite.announce)
    (hg : ∀ pf c2, f (Event.generateNames pf c2) = false) :
    (c.publish (some ch) rds agg ra rv).2.filter f =
      (announceStep c (lookupOrCreate c ch).2.1 ra).2.filter f := by
  rw [publish_some c ch h hm]
  have h1 : (lookupOrCreate c ch).2.2.filter f = [] := by
    unfold lookupOrCreate
    cases find c.chMap ch.name <;> simp [hg]
  have h3 : (valueStep c (announceStep c (lookupOrCreate c ch).2.1 ra).1 rds agg rv).filter f
      = [] := by
    rw [List.filter_eq_nil_iff]
    intro ev hev
    generalize (announceStep c (lookupOrCreate c ch).2.1 ra).1 = e at hev
    simp only [valueStep] at hev
    by_cases hc : ((e.sendAgg && agg) || (e.sendRaw && !agg)) = true
    · rw [if_pos hc, List.mem_singleton] at hev
      subst hev
      intro hfe
      exact absurd (hf _ _ _ _ _ _ _ hfe) (by decide)
    · rw [if_neg hc] at hev
      simp at hev
  simp only [List.filter_append, h1, h3, List.nil_append, List.append_nil]

theorem publishCall_other (c : MqttClient) (p : PublishCall) (k : String)
    (hk : p.name ≠ some k) : find (c.publishCall p).1.chMap k = find c.chMap k := by
  unfold MqttClient.publishCall
  cases hch : p.ch with
  | none => rfl
  | some ch =>
    have hne : ch.name ≠ k := by
      intro h; apply hk; simp [PublishCall.name, hch, h]
    cases hm : c.mcs with
    | none => simp [MqttClient.publish, hm]
    | some h => rw [publish_find c ch h hm, if_neg hne]

theorem publishAll_other (c : MqttClient) (ps : List PublishCall) (k : String)
    (hk : ∀ m ∈ ps, m.name ≠ some k) : find (c.publishAll ps).1.chMap k = find c.chMap k := by
  induction ps generalizing c with
  | nil => rfl
  | cons p rest ih =>
    simp only [MqttClient.publishAll]
    rw [ih _ (fun m hm => hk m (List.mem_cons_of_mem _ hm))]
    exact publishCall_other c p k (hk p (List.mem_cons_self _ _))

theorem lookupOrCreate_announced (c : MqttClient) (ch : Channel)
    (h : announcedAt c ch.name = false) : (lookupOrCreate c ch).2.1.announced = false := by
  unfold announcedAt at h
  unfold lookupOrCreate
  cases hf : find c.chMap ch.name with
  | some e => simpa [hf] using h
  | none =>
    simp only []
    split <;> rfl

/-- What one publish call that runs does about the announce: either the
resolved entry was unannounced with an announce name, the announce is issued
once and the flag records whether it succeeded; or no announce is issued and
the entry stays as resolved. -/
theorem publish_announce_cases (c : MqttClient) (ch : Channel) (h : mosquitto)
    (hm : c.mcs = some h) (rds : Reading) (agg : Bool) (ra rv : Int) :
    ((lookupOrCreate c ch).2.1.announced = false ∧
      (lookupOrCreate c ch).2.1.announceName.length ≠ 0 ∧
      find (c.publish (some ch) rds agg ra rv).1.chMap ch.name =
        some { (lookupOrCreate c ch).2.1 with announced := decide (ra = MOSQ_ERR_SUCCESS) } ∧
      (c.publish (some ch) rds agg ra rv).2.filter (isPublishAt CallSite.announce) =
        [announceEvent (lookupOrCreate c ch).2.1 c.retain ra] ∧
      (c.publish (some ch) rds agg ra rv).2.filter isAnnounceOk =
        (if ra = MOSQ_ERR_SUCCESS then [announceEvent (lookupOrCreate c ch).2.1 c.retain ra]
         else []) ∧
      (c.publish (some ch) rds agg ra rv).2.filter isAnnounceFailed =
        (if ra = MOSQ_ERR_SUCCESS then []
         else [announceEvent (lookupOrCreate c ch).2.1 c.retain ra])) ∨
    (((lookupOrCreate c ch).2.1.announced = true ∨
        (lookupOrCreate c ch).2.1.announceName.length = 0) ∧
      find (c.publish (some ch) rds agg ra rv).1.chMap ch.name = some (lookupOrCreate c ch).2.1 ∧
      (c.publish (some ch) rds agg ra rv).2.filter (isPublishAt CallSite.announce) = [] ∧
      (c.publish (some ch) rds agg ra rv).2.filter isAnnounceOk = [] ∧
      (c.publish (some ch) rds agg ra rv).2.filter isAnnounceFailed = []) := by
  have hfind := publish_find c ch h hm rds agg ra rv ch.name
  rw [if_pos rfl] at hfind
  have e1 := publish_announce_events c ch h hm rds agg ra rv (isPublishAt CallSite.announce)
    (by intro s t n pl q r x hx; simpa [isPublishAt] using hx) (by intro pf c2; rfl)
  have e2 := publish_announce_events c ch h hm rds agg ra rv isAnnounceOk
    (by intro s t n pl q r x hx; cases s <;> simp_all [isAnnounceOk]) (by intro pf c2; rfl)
  have e3 := publish_announce_events c ch h hm rds agg ra rv isAnnounceFailed
    (by intro s t n pl q r x hx; cases s <;> simp_all [isAnnounceFailed]) (by intro pf c2; rfl)
  rcases announceStep_cases c (lookupOrCreate c ch).2.1 ra with ⟨ha, hl, hs⟩ | ⟨hc, hs⟩
  · left
    rw [hs] at hfind e1 e2 e3
    refine ⟨ha, hl, hfind, ?_, ?_, ?_⟩
    · rw [e1]; simp [isPublishAt, announceEvent]
    · rw [e2]; by_cases hr : ra = MOSQ_ERR_SUCCESS <;> simp [isAnnounceOk, announceEvent, hr]
    · rw [e3]; by_cases hr : ra = MOSQ_ERR_SUCCESS <;> simp [isAnnounceFailed, announceEvent, hr]
  · right
    rw [hs] at hfind e1 e2 e3
    exact ⟨hc, hfind, e1, e2, e3⟩

/-- C4: take a publish call p for the channel name k, any calls mid after it,
and a later call q for k, with arbitrary return codes.  (a) If the announce in
p returned success, q issues no announce.  (b) A key whose announced flag is
clear before p and set after p is k, and the announce in p returned success.
(c) If the announce in p returned a failure code, announced is still clear
after p, and when mid has no call for k the call q issues the announce of the
cached entry (announceValue to announceTopic) again.  (d) One call issues at
most one announce. -/
theorem announce_once_and_retry (c : MqttClient) (k : String) (p q : PublishCall)
    (mid : List PublishCall) (hp : p.name = some k) (hq : q.name = some k) :
    ((c.publishCall p).2.filter isAnnounceOk ≠ [] →
      (((c.publishCall p).1.publishAll mid).1.publishCall q).2.filter
        (isPublishAt CallSite.announce) = []) ∧
    (∀ k2, announcedAt c k2 = false → announcedAt (c.publishCall p).1 k2 = true →
      k2 = k ∧ (c.publishCall p).2.filter isAnnounceOk ≠ []) ∧
    ((c.publishCall p).2.filter isAnnounceFailed ≠ [] →
      announcedAt (c.publishCall p).1 k = false ∧
      ((∀ m ∈ mid, m.name ≠ some k) →
        ∃ e, find ((c.publishCall p).1.publishAll mid).1.chMap k = some e ∧
          (((c.publishCall p).1.publishAll mid).1.publishCall q).2.filter
            (isPublishAt CallSite.announce) = [announceEvent e c.retain q.resAnnounce])) ∧
    ((c.publishCall p).2.filter (isPublishAt CallSite.announce)).length ≤ 1 := by
  obtain ⟨ch, hch, hk⟩ : ∃ ch, p.ch = some ch ∧ ch.name = k := by
    cases hc : p.ch with
    | none => simp [PublishCall.name, hc] at hp
    | some ch => exact ⟨ch, rfl, by simpa [PublishCall.name, hc] using hp⟩
  obtain ⟨ch2, hch2, hk2⟩ : ∃ ch, q.ch = some ch ∧ ch.name = k := by
    cases hc : q.ch with
    | none => simp [PublishCall.name, hc] at hq
    | some ch => exact ⟨ch, rfl, by simpa [PublishCall.name, hc] using hq⟩
  cases hm : c.mcs with
  | none =>
    have hr : c.publishCall p = (c, []) := by
      simp [MqttClient.publishCall, MqttClient.publish, hch, hm]
    rw [hr]
    refine ⟨by simp, ?_, by simp, by simp⟩
    intro k2 h1 h2
    rw [h1] at h2
    exact absurd h2 (by decide)
  | some h =>
    have hpc : c.publishCall p = c.publish (some ch) p.rds p.aggregate p.resAnnounce p.resValue := by
      simp [MqttClient.publishCall, hch]
    obtain ⟨hm1, _, hr1, _⟩ := publish_mcs c p
    obtain ⟨hm2, _, hr2, _⟩ := publishAll_fields (c.publishCall p).1 mid
    have hmc2 : ((c.publishCall p).1.publishAll mid).1.mcs = some h := by rw [hm2, hm1, hm]
    have hrc2 : ((c.publishCall p).1.publishAll mid).1.retain = c.retain := by rw [hr2, hr1]
    have hqc : ∀ c2 : MqttClient, c2.publishCall q =
        c2.publish (some ch2) q.rds q.aggregate q.resAnnounce q.resValue := by
      intro c2; simp [MqttClient.publishCall, hch2]
    -- the entry of k after p, and what it becomes after mid
    have hother : ∀ k2, k2 ≠ k → find (c.publishCall p).1.chMap k2 = find c.chMap k2 := by
      intro k2 hne
      apply publishCall_other
      rw [hp]
      intro hh
      injection hh with hh
      exact hne hh.symm
    have hcases := publish_announce_cases c ch h hm p.rds p.aggregate p.resAnnounce p.resValue
    rw [← hpc, hk] at hcases
    -- what q does on an entry e2 cached for k
    have hq2 : ∀ e2, find ((c.publishCall p).1.publishAll mid).1.chMap k = some e2 →
        (e2.announced = true →
          (((c.publishCall p).1.publishAll mid).1.publishCall q).2.filter
            (isPublishAt CallSite.announce) = []) ∧
        (e2.announced = false → e2.announceName.length ≠ 0 →
          (((c.publishCall p).1.publishAll mid).1.publishCall q).2.filter
            (isPublishAt CallSite.announce) = [announceEvent e2 c.retain q.resAnnounce]) := by
      intro e2 hf2
      have hl2 := lookupOrCreate_hit ((c.publishCall p).1.publishAll mid).1 ch2 e2
        (by rw [hk2]; exact hf2)
      have hc2 := publish_announce_cases ((c.publishCall p).1.publishAll mid).1 ch2 h hmc2
        q.rds q.aggregate q.resAnnounce q.resValue
      rw [← hqc, hl2, hrc2] at hc2
      simp only [] at hc2
      constructor
      · intro ha
        rcases hc2 with ⟨hx, _⟩ | ⟨_, _, hx, _⟩
        · rw [ha] at hx; exact absurd hx (by decide)
        · exact hx
      · intro ha hl
        rcases hc2 with ⟨_, _, _, hx, _⟩ | ⟨hx, _⟩
        · exact hx
        · rcases hx with hx | hx
          · rw [ha] at hx; exact absurd hx (by decide)
          · exact absurd hx hl
    rcases hcases with ⟨ha0, hl0, hf1, he1, he2, he3⟩ | ⟨hc0, hf1, he1, he2, he3⟩
    · -- the announce is issued in p
      obtain ⟨e2, hf2, hfld2, hmono2, _⟩ :=
        publishAll_entry_stable (c.publishCall p).1 mid k _ hf1
      refine ⟨?_, ?_, ?_, ?_⟩
      · intro hok
        have hs : p.resAnnounce = MOSQ_ERR_SUCCESS := by
          by_contra hne
          rw [he2, if_neg hne] at hok
          exact hok rfl
        exact (hq2 e2 hf2).1 (hmono2 (by simp [hs]))
      · intro k2 h1 h2
        by_cases hne : k2 = k
        · subst hne
          refine ⟨rfl, ?_⟩
          unfold announcedAt at h2
          rw [hf1] at h2
          simp only [decide_eq_true_eq] at h2
          rw [he2, if_pos h2]
          simp
        · unfold announcedAt at h1 h2
          rw [hother k2 hne] at h2
          rw [h1] at h2
          exact absurd h2 (by decide)
      · intro hfail
        have hs : p.resAnnounce ≠ MOSQ_ERR_SUCCESS := by
          intro heq
          rw [he3, if_pos heq] at hfail
          exact hfail rfl
        constructor
        · unfold announcedAt
          rw [hf1]
          simp [hs]
        · intro hmid
          have hsame := publishAll_other (c.publishCall p).1 mid k hmid
          rw [hf1] at hsame
          refine ⟨_, hsame, ?_⟩
          exact (hq2 _ hsame).2 (by simp [hs]) hl0
      · rw [he1]; simp
    · -- no announce is issued in p
      refine ⟨?_, ?_, ?_, ?_⟩
      · intro hok; exact absurd he2 hok
      · intro k2 h1 h2
        by_cases hne : k2 = k
        · subst hne
          have hx := lookupOrCreate_announced c ch (by rw [hk]; exact h1)
          unfold announcedAt at h2
          rw [hf1] at h2
          simp only [] at h2
          rw [hx] at h2
          exact absurd h2 (by decide)
        · unfold announcedAt at h1 h2
          rw [hother k2 hne] at h2
          rw [h1] at h2
          exact absurd h2 (by decide)
      · intro hfail; exact absurd he3 hfail
      · rw [he1]; simp

/-- Witness for C4: the announce for power1 fails in the first call, a call for
energy follows, and the next call for power1 announces again. -/
theorem announce_once_and_retry_witness :
    ((⟨some power1, reading42_5, false, 5, 0⟩ : PublishCall).name = some "power1" ∧
      (connectedClient.publishCall ⟨some power1, reading42_5, false, 5, 0⟩).2.filter
        isAnnounceFailed ≠ [] ∧
      (∀ m ∈ [(⟨some energy, reading42_5, true, 0, 0⟩ : PublishCall)], m.name ≠ some "power1")) ∧
    (((connectedClient.publishCall ⟨some power1, reading42_5, false, 5, 0⟩).2.filter
        isAnnounceOk ≠ [] →
      (((connectedClient.publishCall ⟨some power1, reading42_5, false, 5, 0⟩).1.publishAll
          [⟨some energy, reading42_5, true, 0, 0⟩]).1.publishCall
          ⟨some power1b, reading42_5, false, 0, 0⟩).2.filter
        (isPublishAt CallSite.announce) = []) ∧
    (∀ k2, announcedAt connectedClient k2 = false →
      announcedAt (connectedClient.publishCall ⟨some power1, reading42_5, false, 5, 0⟩).1 k2
        = true →
      k2 = "power1" ∧
        (connectedClient.publishCall ⟨some power1, reading42_5, false, 5, 0⟩).2.filter
          isAnnounceOk ≠ []) ∧
    ((connectedClient.publishCall ⟨some power1, reading42_5, false, 5, 0⟩).2.filter
        isAnnounceFailed ≠ [] →
      announcedAt (connectedClient.publishCall ⟨some power1, reading42_5, false, 5, 0⟩).1
        "power1" = false ∧
      ((∀ m ∈ [(⟨some energy, reading42_5, true, 0, 0⟩ : PublishCall)],
          m.name ≠ some "power1") →
        ∃ e, find ((connectedClient.publishCall ⟨some power1, reading42_5, false, 5, 0⟩).1.publishAll
              [⟨some energy, reading42_5, true, 0, 0⟩]).1.chMap "power1" = some e ∧
          (((connectedClient.publishCall ⟨some power1, reading42_5, false, 5, 0⟩).1.publishAll
              [⟨some energy, reading42_5, true, 0, 0⟩]).1.publishCall
              ⟨some power1b, reading42_5, false, 0, 0⟩).2.filter
            (isPublishAt CallSite.announce) = [announceEvent e connectedClient.retain 0])) ∧
    ((connectedClient.publishCall ⟨some power1, reading42_5, false, 5, 0⟩).2.filter
      (isPublishAt CallSite.announce)).length ≤ 1) :=
  ⟨⟨rfl, by decide, by decide⟩,
   announce_once_and_retry connectedClient "power1" ⟨some power1, reading42_5, false, 5, 0⟩
    ⟨some power1b, reading42_5, false, 0, 0⟩ [⟨some energy, reading42_5, true, 0, 0⟩] rfl rfl⟩

/-! ## The client thread -/

theorem clientLoop_head (iters : List (Int × Int)) :
    (clientLoop iters)[0]? = none ∨
      ∃ r, (clientLoop iters)[0]? = some (ThreadEvent.mosquitto_loop 1000 1 r) := by
  cases iters with
  | nil => left; rfl
  | cons x rest =>
    obtain ⟨res, rres⟩ := x
    right
    refine ⟨res, ?_⟩
    unfold clientLoop
    split <;> simp

theorem clientLoop_counts (iters : List (Int × Int)) :
    (clientLoop iters).countP isReconnect = iters.countP (fun x => x.1 != MOSQ_ERR_SUCCESS) ∧
    (clientLoop iters).countP isFailedLoop = iters.countP (fun x => x.1 != MOSQ_ERR_SUCCESS) := by
  induction iters with
  | nil => simp [clientLoop]
  | cons x rest ih =>
    obtain ⟨res, rres⟩ := x
    unfold clientLoop
    by_cases hr : res = MOSQ_ERR_SUCCESS
    · simp [hr, List.countP_cons, isReconnect, isFailedLoop, ih.1, ih.2]
    · simp [hr, List.countP_cons, isReconnect, isFailedLoop, ih.1, ih.2]

/-- Shape of the trace of the loop: where a reconnect, a pause and a processing
call stand relative to each other. -/
theorem clientLoop_shape (iters : List (Int × Int)) :
    (∀ i r, (clientLoop iters)[i]? = some (ThreadEvent.mosquitto_reconnect r) →
      ∃ j r0, i = j + 2 ∧ r0 ≠ MOSQ_ERR_SUCCESS ∧
        (clientLoop iters)[j]? = some (ThreadEvent.mosquitto_loop 1000 1 r0) ∧
        (clientLoop iters)[j + 1]? = some (ThreadEvent.sleep 1)) ∧
    (∀ i a b r, (clientLoop iters)[i]? = some (ThreadEvent.mosquitto_loop a b r) →
      a = 1000 ∧ b = 1 ∧
      (r = MOSQ_ERR_SUCCESS → (clientLoop iters)[i + 1]? = none ∨
        ∃ r2, (clientLoop iters)[i + 1]? = some (ThreadEvent.mosquitto_loop 1000 1 r2)) ∧
      (r ≠ MOSQ_ERR_SUCCESS → (clientLoop iters)[i + 1]? = some (ThreadEvent.sleep 1) ∧
        ∃ rr, (clientLoop iters)[i + 2]? = some (ThreadEvent.mosquitto_reconnect rr))) ∧
    (∀ i s, (clientLoop iters)[i]? = some (ThreadEvent.sleep s) →
      s = 1 ∧ ∃ rr, (clientLoop iters)[i + 1]? = some (ThreadEvent.mosquitto_reconnect rr)) := by
  induction iters with
  | nil => simp [clientLoop]
  | cons x rest ih =>
    obtain ⟨res, rres⟩ := x
    obtain ⟨ih1, ih2, ih3⟩ := ih
    have hhead := clientLoop_head rest
    by_cases hr : res = MOSQ_ERR_SUCCESS
    · have hdef : clientLoop ((res, rres) :: rest) =
          ThreadEvent.mosquitto_loop 1000 1 res :: clientLoop rest := by
        simp [clientLoop, hr]
      rw [hdef]
      refine ⟨?_, ?_, ?_⟩
      · intro i r hi
        cases i with
        | zero => simp at hi
        | succ i =>
          simp only [List.getElem?_cons_succ] at hi
          obtain ⟨j, r0, hj, hr0, h1, h2⟩ := ih1 i r hi
          exact ⟨j + 1, r0, by omega, hr0, by simpa using h1, by simpa using h2⟩
      · intro i a b r hi
        cases i with
        | zero =>
          simp only [List.getElem?_cons_zero, Option.some.injEq,
            ThreadEvent.mosquitto_loop.injEq] at hi
          obtain ⟨ha, hb, hrr⟩ := hi
          refine ⟨ha.symm, hb.symm, ?_, ?_⟩
          · intro _; simpa using hhead
          · intro hne; exact absurd (hrr.symm.trans hr) hne
        | succ i =>
          simp only [List.getElem?_cons_succ] at hi ⊢
          exact ih2 i a b r hi
      · intro i s hi
        cases i with
        | zero => simp at hi
        | succ i =>
          simp only [List.getElem?_cons_succ] at hi ⊢
          exact ih3 i s hi
    · have hdef : clientLoop ((res, rres) :: rest) =
          ThreadEvent.mosquitto_loop 1000 1 res :: ThreadEvent.sleep 1 ::
            ThreadEvent.mosquitto_reconnect rres :: clientLoop rest := by
        simp [clientLoop, hr]
      rw [hdef]
      refine ⟨?_, ?_, ?_⟩
      · intro i r hi
        match i with
        | 0 => simp at hi
        | 1 => simp at hi
        | 2 => exact ⟨0, res, rfl, hr, rfl, rfl⟩
        | i + 3 =>
          simp only [List.getElem?_cons_succ] at hi
          obtain ⟨j, r0, hj, hr0, h1, h2⟩ := ih1 i r hi
          exact ⟨j + 3, r0, by omega, hr0, by simpa using h1, by simpa using h2⟩
      · intro i a b r hi
        match i with
        | 0 =>
          simp only [List.getElem?_cons_zero, Option.some.injEq,
            ThreadEvent.mosquitto_loop.injEq] at hi
          obtain ⟨ha, hb, hrr⟩ := hi
          refine ⟨ha.symm, hb.symm, ?_, ?_⟩
          · intro heq; exact absurd (hrr.trans heq) hr
          · intro _; exact ⟨by simp, rres, by simp⟩
        | 1 => simp at hi
        | 2 => simp at hi
        | i + 3 =>
          simp only [List.getElem?_cons_succ] at hi ⊢
          exact ih2 i a b r hi
      · intro i s hi
        match i with
        | 0 => simp at hi
        | 1 =>
          simp only [List.getElem?_cons_succ, List.getElem?_cons_zero, Option.some.injEq,
            ThreadEvent.sleep.injEq] at hi
          exact ⟨hi.symm, rres, by simp⟩
        | 2 => simp at hi
        | i + 3 =>
          simp only [List.getElem?_cons_succ] at hi ⊢
          exact ih3 i s hi

/-- C10: in the trace of mqtt_client_thread, for any return codes of the
processing call in the iterations entered before the stop flag is seen and any
reconnect return codes: the number of reconnect attempts equals the number of
non-success processing results; every reconnect is immediately preceded by the
pause `sleep(1)`, which immediately follows a failing processing call; every
failing processing call is followed by the pause and the reconnect; a
successful processing call is followed by neither (the trace ends or the next
processing call comes); and fail, fail, fail, success gives exactly three
reconnect attempts. -/
theorem reconnect_per_failed_loop (mqttClient : Option MqttClient) (iters : List (Int × Int)) :
    (mqtt_client_thread mqttClient iters).countP isReconnect =
      (mqtt_client_thread mqttClient iters).countP isFailedLoop ∧
    (∀ c, mqttClient = some c →
      (mqtt_client_thread mqttClient iters).countP isReconnect =
        iters.countP (fun x => x.1 != MOSQ_ERR_SUCCESS)) ∧
    (∀ i r, (mqtt_client_thread mqttClient iters)[i]? = some (ThreadEvent.mosquitto_reconnect r) →
      ∃ j r0, i = j + 2 ∧ r0 ≠ MOSQ_ERR_SUCCESS ∧
        (mqtt_client_thread mqttClient iters)[j]? = some (ThreadEvent.mosquitto_loop 1000 1 r0) ∧
        (mqtt_client_thread mqttClient iters)[j + 1]? = some (ThreadEvent.sleep 1)) ∧
    (∀ i a b r, (mqtt_client_thread mqttClient iters)[i]? =
        some (ThreadEvent.mosquitto_loop a b r) →
      a = 1000 ∧ b = 1 ∧
      (r = MOSQ_ERR_SUCCESS → (mqtt_client_thread mqttClient iters)[i + 1]? = none ∨
        ∃ r2, (mqtt_client_thread mqttClient iters)[i + 1]? =
          some (ThreadEvent.mosquitto_loop 1000 1 r2)) ∧
      (r ≠ MOSQ_ERR_SUCCESS →
        (mqtt_client_thread mqttClient iters)[i + 1]? = some (ThreadEvent.sleep 1) ∧
        ∃ rr, (mqtt_client_thread mqttClient iters)[i + 2]? =
          some (ThreadEvent.mosquitto_reconnect rr))) ∧
    (∀ i s, (mqtt_client_thread mqttClient iters)[i]? = some (ThreadEvent.sleep s) →
      s = 1 ∧ ∃ rr, (mqtt_client_thread mqttClient iters)[i + 1]? =
        some (ThreadEvent.mosquitto_reconnect rr)) ∧
    (∀ c f1 f2 f3 r1 r2 r3 r4, f1 ≠ MOSQ_ERR_SUCCESS → f2 ≠ MOSQ_ERR_SUCCESS →
      f3 ≠ MOSQ_ERR_SUCCESS →
      mqtt_client_thread (some c) [(f1, r1), (f2, r2), (f3, r3), (MOSQ_ERR_SUCCESS, r4)] =
        [ThreadEvent.mosquitto_loop 1000 1 f1, ThreadEvent.sleep 1,
         ThreadEvent.mosquitto_reconnect r1,
         ThreadEvent.mosquitto_loop 1000 1 f2, ThreadEvent.sleep 1,
         ThreadEvent.mosquitto_reconnect r2,
         ThreadEvent.mosquitto_loop 1000 1 f3, ThreadEvent.sleep 1,
         ThreadEvent.mosquitto_reconnect r3,
         ThreadEvent.mosquitto_loop 1000 1 MOSQ_ERR_SUCCESS] ∧
      (mqtt_client_thread (some c)
        [(f1, r1), (f2, r2), (f3, r3), (MOSQ_ERR_SUCCESS, r4)]).countP isReconnect = 3) := by
  have hscen : ∀ (c : MqttClient) (f1 f2 f3 r1 r2 r3 r4 : Int), f1 ≠ MOSQ_ERR_SUCCESS →
      f2 ≠ MOSQ_ERR_SUCCESS → f3 ≠ MOSQ_ERR_SUCCESS →
      mqtt_client_thread (some c) [(f1, r1), (f2, r2), (f3, r3), (MOSQ_ERR_SUCCESS, r4)] =
        [ThreadEvent.mosquitto_loop 1000 1 f1, ThreadEvent.sleep 1,
         ThreadEvent.mosquitto_reconnect r1,
         ThreadEvent.mosquitto_loop 1000 1 f2, ThreadEvent.sleep 1,
         ThreadEvent.mosquitto_reconnect r2,
         ThreadEvent.mosquitto_loop 1000 1 f3, ThreadEvent.sleep 1,
         ThreadEvent.mosquitto_reconnect r3,
         ThreadEvent.mosquitto_loop 1000 1 MOSQ_ERR_SUCCESS] := by
    intro c f1 f2 f3 r1 r2 r3 r4 h1 h2 h3
    simp [mqtt_client_thread, clientLoop, h1, h2, h3]
  cases mqttClient with
  | none =>
    refine ⟨rfl, ?_, ?_, ?_, ?_, ?_⟩
    · intro c hc; exact absurd hc (by simp)
    · intro i r hi; simp [mqtt_client_thread] at hi
    · intro i a b r hi; simp [mqtt_client_thread] at hi
    · intro i s hi; simp [mqtt_client_thread] at hi
    · intro c f1 f2 f3 r1 r2 r3 r4 h1 h2 h3
      refine ⟨hscen c f1 f2 f3 r1 r2 r3 r4 h1 h2 h3, ?_⟩
      rw [hscen c f1 f2 f3 r1 r2 r3 r4 h1 h2 h3]
      simp [List.countP_cons, isReconnect]
  | some c0 =>
    have hdef : mqtt_client_thread (some c0) iters = clientLoop iters := rfl
    rw [hdef]
    obtain ⟨s1, s2, s3⟩ := clientLoop_shape iters
    obtain ⟨c1, c2⟩ := clientLoop_counts iters
    refine ⟨c1.trans c2.symm, fun _ _ => c1, s1, s2, s3, ?_⟩
    intro c f1 f2 f3 r1 r2 r3 r4 h1 h2 h3
    refine ⟨hscen c f1 f2 f3 r1 r2 r3 r4 h1 h2 h3, ?_⟩
    rw [hscen c f1 f2 f3 r1 r2 r3 r4 h1 h2 h3]
    simp [List.countP_cons, isReconnect]

end Vzlogger
